import Mathlib

/-!
# Verification of the AllSeeing_AllSpeaking_Skull audio streaming core

A shallow embedding of the repository's two core components:

* `WavLoader` (`src/WavLoader.h`, implementation in the second part of
  `src/Timer.h`): the random-access RIFF/WAVE container reader;
* `AudioSamplerStream` (`src/AudioStream.h`): the streaming sample cache with
  a lead-in buffer and a 3-slot ring cache, instantiated — as in the repo's
  intended use — at `SampleType = int16_t` (so `sizeof(SampleType) = 2`).

Modelling conventions:

* The storage backend (`FileWrapper`) is modelled functionally as the byte
  content of the underlying file (a byte-valued function plus a size) and a
  cursor: `read` returns `min n (size - pos)` bytes, `seek` is absolute and
  always succeeds (matching the POSIX backend, where `fseek` past
  end-of-file succeeds).
* Machine integers are modelled as unbounded `Nat`/`Int`.  All quantities a
  claim touches stay far below `2^31`, so C integer wrap-around does not
  matter, with one exception that does change behavior qualitatively:
  `_file.numSamples() - _introBufSize` in `prime` is computed in `size_t`
  arithmetic and wraps when the lead-in is longer than the sample count;
  `relLenU64` models that wrap explicitly.
* Sample *payload* bytes (the contents of `_introBuf`/`_ringBuf`) are not
  modelled: no claim below refers to the delivered sample values, only to
  delivered counts, error codes, cursors and the block map.
* `prime` additionally returns the list of storage transactions it performed
  (`StorageEvent`), so that claims about "at most one storage read per
  invocation" can be stated; the trace is pure instrumentation and does not
  influence any computed state.
* Fields marked "ghost" in `WavLoaderState` record specification-level facts
  about the parse (e.g. the declared size of the data chunk) and influence
  nothing.
-/

namespace Unsaturated

/-- A sequence of byte values. -/
abbrev Bytes := List Nat

/-- A storage file: the byte value at every position, and the total size.
(`read` past `size` transfers nothing; positions at or beyond `size` are
never inspected.) -/
structure StorageData where
  byteAt : Nat → Nat
  size : Nat

/-- Number of bytes a storage read of `n` bytes at position `pos`
transfers: `min n (size - pos)`, matching `fread` on the POSIX backend. -/
def readCount (data : StorageData) (pos n : Nat) : Nat :=
  min n (data.size - pos)

/-- `FileWrapper::read` at absolute position `pos`: the bytes transferred. -/
def readBytes (data : StorageData) (pos n : Nat) : Bytes :=
  (List.range (readCount data pos n)).map fun i => data.byteAt (pos + i)

/-- Storage whose initial bytes are `l` (zero beyond) with size `size`. -/
def mkFile (l : Bytes) (size : Nat) : StorageData :=
  ⟨fun i => l.getD i 0, size⟩

/-- Little-endian decoding of a byte list (`uint16_t`/`uint32_t` fields). -/
def leDec (bs : Bytes) : Nat :=
  bs.foldr (fun b acc => b + 256 * acc) 0

/-- `struct WavFormat` (`src/WavLoader.h`, lines 13-21). -/
structure WavFormat where
  audio_format : Nat
  num_channels : Nat
  sample_rate : Nat
  data_rate : Nat
  block_align : Nat
  bits_per_sample : Nat
deriving DecidableEq, Repr

/-- The value-initialized format produced by `WavLoader()`'s `_format()`. -/
def WavFormat.init : WavFormat := ⟨0, 0, 0, 0, 0, 0⟩

/-- Decode a 16-byte `fmt ` chunk payload into `WavFormat`. -/
def decodeFormat (bs : Bytes) : WavFormat where
  audio_format := leDec (bs.take 2)
  num_channels := leDec ((bs.drop 2).take 2)
  sample_rate := leDec ((bs.drop 4).take 4)
  data_rate := leDec ((bs.drop 8).take 4)
  block_align := leDec ((bs.drop 12).take 2)
  bits_per_sample := leDec ((bs.drop 14).take 2)

/-- The `RIFF` chunk tag as bytes. -/
def RIFF_TAG : Bytes := [82, 73, 70, 70]
/-- The `WAVE` type tag as bytes. -/
def WAVE_TAG : Bytes := [87, 65, 86, 69]
/-- The `fmt ` chunk tag as bytes. -/
def FMT_TAG : Bytes := [102, 109, 116, 32]
/-- The `data` chunk tag as bytes. -/
def DATA_TAG : Bytes := [100, 97, 116, 97]

/-- The state of a `WavLoader` bound to an opened storage file.

`data` and `pos` model the underlying `FileWrapper` (file contents and
cursor); the remaining non-ghost fields are the members of `class WavLoader`.
The four ghost fields record facts about the chunk scan for specification
purposes only. -/
structure WavLoaderState where
  data : StorageData
  pos : Nat
  format : WavFormat
  wposition : Nat
  length : Nat
  data_offset : Nat
  file_size : Nat
  /-- ghost: a `fmt ` chunk has been consumed. -/
  fmtSeen : Bool
  /-- ghost: some `data` chunk was processed before any `fmt ` chunk. -/
  sawDataBeforeFmt : Bool
  /-- ghost: the `data`-length division was performed with `block_align = 0`. -/
  dataDivZeroAlign : Bool
  /-- ghost: declared byte length of the (last) `data` chunk processed. -/
  dataChunkSize : Nat
  /-- ghost: the `block_align` in effect when the (last) `data` chunk was
  processed, i.e. the divisor used to derive `_length`. -/
  alignAtData : Nat

/-- A `WavLoader` before any successful `open`. -/
def wavInit : WavLoaderState where
  data := ⟨fun _ => 0, 0⟩
  pos := 0
  format := WavFormat.init
  wposition := 0
  length := 0
  data_offset := 0
  file_size := 0
  fmtSeen := false
  sawDataBeforeFmt := false
  dataDivZeroAlign := false
  dataChunkSize := 0
  alignAtData := 0

/-- The chunk-scan loop of `WavLoader::open` (`src/Timer.h`, lines 220-254).

Each iteration reads an 8-byte chunk header at the current position (a short
read aborts), records `next_chunk_pos`, processes `fmt `/`data` chunks, stops
once `file_size <= next_chunk_pos`, and otherwise seeks to the next chunk.
`fuel` dominates the number of iterations; `wavOpen` passes enough for the
loop's own exit conditions to fire first. -/
def openLoop (fuel : Nat) (s : WavLoaderState) : Option WavLoaderState :=
  match fuel with
  | 0 => none
  | fuel + 1 =>
    let hdr := readBytes s.data s.pos 8
    if hdr.length = 8 then
      let tag := hdr.take 4
      let size := leDec (hdr.drop 4)
      let pos := s.pos + 8
      let next := pos + size
      if tag = FMT_TAG then
        let payload := readBytes s.data pos 16
        if payload.length = 16 then
          let s' := { s with pos := pos + 16, format := decodeFormat payload, fmtSeen := true }
          if s'.file_size ≤ next then some s' else openLoop fuel { s' with pos := next }
        else none
      else if tag = DATA_TAG then
        let s' := { s with pos := pos
                         , length := size / s.format.block_align
                         , data_offset := pos
                         , sawDataBeforeFmt := s.sawDataBeforeFmt || !s.fmtSeen
                         , dataDivZeroAlign := s.dataDivZeroAlign || decide (s.format.block_align = 0)
                         , dataChunkSize := size
                         , alignAtData := s.format.block_align }
        if s'.file_size ≤ next then some s' else openLoop fuel { s' with pos := next }
      else
        let s' := { s with pos := pos }
        if s'.file_size ≤ next then some s' else openLoop fuel { s' with pos := next }
    else none

/-- `WavLoader::open` (`src/Timer.h`, lines 177-259): verify the `RIFF`
header and `WAVE` tag, then scan chunks.  `none` models every failure path
(the C++ closes the file and returns `false`). -/
def wavOpen (data : StorageData) : Option WavLoaderState :=
  let hdr := readBytes data 0 8
  if hdr.length = 8 then
    if hdr.take 4 = RIFF_TAG then
      let fsize := 8 + leDec (hdr.drop 4)
      let wtag := readBytes data 8 4
      if wtag.length = 4 then
        if wtag = WAVE_TAG then
          let s0 : WavLoaderState :=
            { wavInit with data := data, pos := 12, file_size := fsize }
          match openLoop (fsize + data.size + 16) s0 with
          | some s => some { s with wposition := 0 }
          | none => none
        else none
      else none
    else none
  else none

/-- `WavLoader::filePositionForSample` (`src/Timer.h`, lines 269-273). -/
def filePositionForSample (s : WavLoaderState) (sample_pos : Nat) : Nat :=
  s.data_offset + (min sample_pos s.length) * s.format.block_align

/-- `WavLoader::position` (`src/Timer.h`, lines 275-277). -/
def wavPosition (s : WavLoaderState) : Nat := s.wposition

/-- `WavLoader::seek` (`src/Timer.h`, lines 279-282): stores the *byte*
offset into `_position` and seeks the storage there.  The boolean result of
the underlying storage seek is always `true` in this model. -/
def wavSeek (s : WavLoaderState) (position : Nat) : WavLoaderState :=
  let p := filePositionForSample s position
  { s with wposition := p, pos := p }

/-- `WavLoader::read` (`src/Timer.h`, lines 284-287): forwards to the
storage read at the current cursor; returns the updated state and the number
of bytes transferred. -/
def wavRead (s : WavLoaderState) (bufSize : Nat) : WavLoaderState × Nat :=
  let n := readCount s.data s.pos bufSize
  ({ s with pos := s.pos + n }, n)

/-! ## AudioSamplerStream (`src/AudioStream.h`), at `SampleType = int16_t` -/

/-- `AudioSamplerError` (`src/AudioStream.h`, lines 38-43). -/
inductive AudioSamplerError where
  | NoErr
  | BadFile
  | BadSampleSize
deriving DecidableEq, Repr

/-- `AudioSamplerStream::BlockSize`. -/
def BlockSize : Nat := 4096
/-- `AudioSamplerStream::NumBlocks`. -/
def NumBlocks : Nat := 3
/-- `sizeof(SampleType)` for `SampleType = int16_t`. -/
def sizeofSample : Nat := 2
/-- `AudioSamplerStream::SamplesPerBlock` = 2048. -/
def SamplesPerBlock : Nat := BlockSize / sizeofSample
/-- `AudioSamplerStream::IntroBufCapacity` = 4096 samples. -/
def IntroBufCapacity : Nat := (BlockSize * 2) / sizeofSample
/-- `AudioSamplerStream::UnmappedBlock = INT_MAX`. -/
def UnmappedBlock : Nat := 2147483647

/-- The state of an `AudioSamplerStream<int16_t>`.

`_readHead` is not modelled separately: `read` recomputes it from
`_sampleIdx` before each copy, so it is derived state.  The contents of
`_introBuf`/`_ringBuf` are not modelled (see the file header). -/
structure SamplerState where
  file : WavLoaderState
  introBufSize : Nat
  sampleIdx : Nat
  bufBlockMap : Fin 3 → Nat

/-- A default-constructed sampler.  The constructor initializes only
`_introBufSize` (to 0); `_sampleIdx` and `_bufBlockMap` are uninitialized in
the C++ and are given placeholder values here — every claim below starts
from a `samplerLoad`, which overwrites them. -/
def samplerInit : SamplerState where
  file := wavInit
  introBufSize := 0
  sampleIdx := 0
  bufBlockMap := fun _ => 0

/-- `AudioSamplerStream::set_sample_index` (`src/AudioStream.h`, lines
65-69): assigns only when the index is strictly below `numSamples()`.  (The
C++ declares a `bool` return type but has no return statement; only the
state effect is modelled.) -/
def set_sample_index (s : SamplerState) (sampleIndex : Nat) : SamplerState :=
  if sampleIndex < s.file.length then { s with sampleIdx := sampleIndex } else s

/-- `AudioSamplerStream::setSampleIndex` (`src/AudioStream.h`, lines
223-225): clips to `numSamples()`. -/
def setSampleIndex (s : SamplerState) (sampleIdx : Nat) : SamplerState :=
  { s with sampleIdx := min sampleIdx s.file.length }

/-- `AudioSamplerStream::loadIntroBuffer` (`src/AudioStream.h`, lines
235-264).  Computes the lead-in size in bytes from the byte offset of sample
0, reads once from storage, and sets `_introBufSize` (in samples) only when
at least one byte was transferred. -/
def loadIntroBuffer (s : SamplerState) : SamplerState × AudioSamplerError :=
  let f1 := wavSeek s.file 0
  let fileOffset := filePositionForSample f1 0
  let introBytes :=
    if fileOffset < BlockSize then
      (BlockSize - fileOffset) + BlockSize
    else if fileOffset % BlockSize ≠ 0 then
      ((((fileOffset / BlockSize) * BlockSize) + BlockSize) - fileOffset) + BlockSize
    else
      IntroBufCapacity * sizeofSample
  let fr := wavRead f1 introBytes
  if fr.2 > 0 then
    ({ s with file := fr.1, introBufSize := fr.2 / sizeofSample }, .NoErr)
  else
    ({ s with file := fr.1 }, .BadFile)

/-- `AudioSamplerStream::load` (`src/AudioStream.h`, lines 71-90).  Note the
faithful quirk: the result of `loadIntroBuffer()` is computed and then
*discarded* (line 80 calls it without using the return value). -/
def samplerLoad (s : SamplerState) (data : StorageData) : SamplerState × AudioSamplerError :=
  match wavOpen data with
  | none => (s, .BadFile)
  | some f =>
    if f.format.bits_per_sample ≠ sizeofSample * 8 then
      ({ s with file := f }, .BadSampleSize)
    else
      let s1 := { s with file := f }
      let s2 := (loadIntroBuffer s1).1
      ({ s2 with sampleIdx := 0, bufBlockMap := fun _ => UnmappedBlock }, .NoErr)

/-- The block-map scan of `read` (`src/AudioStream.h`, lines 121-129): first
slot holding `fileBlock`, in slot order. -/
def findSlot (map : Fin 3 → Nat) (fileBlock : Nat) : Option (Fin 3) :=
  if map 0 = fileBlock then some 0
  else if map 1 = fileBlock then some 1
  else if map 2 = fileBlock then some 2
  else none

/-- The cache-serving loop of `read` (`src/AudioStream.h`, lines 116-145):
repeatedly locate the block under the cursor in the ring cache and consume
up to the end of that block; stop on a miss.  Returns the new `_sampleIdx`
and the remaining (undelivered) request.  The extra `fuel` argument makes
the recursion structural; `samplerRead` passes `fuel = left`, which
dominates the iteration count because every iteration consumes at least one
sample, so the fuel never runs out before the loop's own exits fire. -/
def readLoop (map : Fin 3 → Nat) (intro : Nat) :
    (fuel sampleIdx left : Nat) → Nat × Nat
  | 0, sampleIdx, left => (sampleIdx, left)
  | fuel + 1, sampleIdx, left =>
    if left = 0 then (sampleIdx, 0)
    else
      let fileBlock := (sampleIdx - intro) / SamplesPerBlock
      let fileBlockOffset := (sampleIdx - intro) % SamplesPerBlock
      match findSlot map fileBlock with
      | none => (sampleIdx, left)
      | some _ =>
        let to_read := min left (SamplesPerBlock - fileBlockOffset)
        readLoop map intro fuel (sampleIdx + to_read) (left - to_read)

/-- `AudioSamplerStream::read` (`src/AudioStream.h`, lines 92-148): serve
from the lead-in while the cursor is inside it, then from the ring cache.
Returns the new state and the number of samples delivered. -/
def samplerRead (s : SamplerState) (numSamples : Nat) : SamplerState × Nat :=
  let p1 :=
    if s.sampleIdx < s.introBufSize then
      let to_read := min numSamples (s.introBufSize - s.sampleIdx)
      (s.sampleIdx + to_read, numSamples - to_read)
    else
      (s.sampleIdx, numSamples)
  let p2 := readLoop s.bufBlockMap s.introBufSize p1.2 p1.1 p1.2
  ({ s with sampleIdx := p2.1 }, numSamples - p2.2)

/-! ### `prime` -/

/-- A storage transaction performed by `prime`: an absolute byte seek, or a
read recording the byte position it started at and the bytes transferred. -/
inductive StorageEvent where
  | seekEv : Nat → StorageEvent
  | readEv : Nat → Nat → StorageEvent
deriving DecidableEq, Repr

/-- Whether an event is a storage read. -/
def StorageEvent.isRead : StorageEvent → Bool
  | .readEv _ _ => true
  | .seekEv _ => false

/-- Whether an event is a storage read that transferred at least one byte. -/
def StorageEvent.isPositiveRead : StorageEvent → Bool
  | .readEv _ n => decide (0 < n)
  | .seekEv _ => false

/-- `labs(a - rhb)` for a block-map entry `a` (`src/AudioStream.h`, lines
166-168); exact since all values involved stay below `2^31`. -/
def absDist (a rhb : Nat) : Nat :=
  ((a : Int) - rhb).natAbs

/-- The eviction-candidate search of `prime` (`src/AudioStream.h`, lines
164-173): the first slot of maximal `labs`-distance from `readHeadBlock`,
together with that distance (`idx` and `maxDiff`; strict `>` keeps the first
occurrence on ties). -/
def primeVictim (map : Fin 3 → Nat) (rhb : Nat) : Fin 3 × Nat :=
  let d0 := absDist (map 0) rhb
  let d1 := absDist (map 1) rhb
  let d2 := absDist (map 2) rhb
  let v1 : Fin 3 × Nat := if d1 > d0 then (1, d1) else (0, d0)
  if d2 > v1.2 then (2, d2) else v1

/-- `_file.numSamples() - _introBufSize` as computed in `prime`'s range
check (`src/AudioStream.h`, line 184): `uint32_t` minus `size_t`, i.e.
64-bit unsigned arithmetic, which wraps when the lead-in is longer than the
sample count. -/
def relLenU64 (length intro : Nat) : Int :=
  ((length : Int) - intro).emod (2 ^ 64)

/-- Outcome of examining one candidate block in `prime`'s scan. -/
inductive TryOutcome where
  | filled
  | passed
  | blocked
deriving DecidableEq, Repr

/-- Membership of a candidate block index in the block map, as compared in
`src/AudioStream.h`, lines 188-193. -/
def inMapB (map : Fin 3 → Nat) (block : Int) : Bool :=
  decide ((map 0 : Int) = block) || decide ((map 1 : Int) = block) ||
    decide ((map 2 : Int) = block)

/-- The seek-and-read of a chosen candidate (`src/AudioStream.h`, lines
195-211): seek the container to `block * SamplesPerBlock + _introBufSize`
samples, read one `BlockSize`-byte block into the victim slot, and publish
the map entry only when at least one byte arrived. -/
def fillAttempt (s : SamplerState) (victim : Fin 3) (block : Int) :
    SamplerState × Bool × List StorageEvent :=
  let f1 := wavSeek s.file (block.toNat * SamplesPerBlock + s.introBufSize)
  let fr := wavRead f1 BlockSize
  if fr.2 > 0 then
    ({ s with file := fr.1
            , bufBlockMap := Function.update s.bufBlockMap victim block.toNat },
     true, [.seekEv f1.pos, .readEv f1.pos fr.2])
  else
    ({ s with file := fr.1 }, false, [.seekEv f1.pos, .readEv f1.pos fr.2])

/-- Examine one candidate block (`src/AudioStream.h`, lines 182-211):
out-of-range candidates `break` the sign loop (`blocked`), candidates
already in the map are skipped (`passed`), and an attempted fill returns
`filled` on a positive read or `passed` on a zero-byte read (the `/* Handle
a short read here */` fall-through).  The seek-failure `break` is
unrepresentable here because the modelled storage seek always succeeds. -/
def tryCand (s : SamplerState) (victim : Fin 3) (block : Int) :
    SamplerState × TryOutcome × List StorageEvent :=
  if block < 0 then (s, .blocked, [])
  else if block * (SamplesPerBlock : Int) > relLenU64 s.file.length s.introBufSize then
    (s, .blocked, [])
  else if inMapB s.bufBlockMap block then (s, .passed, [])
  else
    let r := fillAttempt s victim block
    (r.1, if r.2.1 then .filled else .passed, r.2.2)

/-- The inner sign loop of `prime` at one distance (`src/AudioStream.h`,
line 181): ahead (`readHeadBlock + absDiff`) first, then — unless the ahead
candidate `break`s or fills — behind (`readHeadBlock - absDiff`). -/
def tryDistance (s : SamplerState) (victim : Fin 3) (rhb absDiff : Nat) :
    SamplerState × Bool × List StorageEvent :=
  let r1 := tryCand s victim ((rhb : Int) + absDiff)
  match r1.2.1 with
  | .filled => (r1.1, true, r1.2.2)
  | .blocked => (r1.1, false, r1.2.2)
  | .passed =>
    let r2 := tryCand r1.1 victim ((rhb : Int) - absDiff)
    (r2.1, (match r2.2.1 with | .filled => true | _ => false), r1.2.2 ++ r2.2.2)

/-- The outer distance loop of `prime` (`src/AudioStream.h`, line 178):
distances `absDiff, absDiff+1, …` while `fuel` lasts (`prime` starts it at
`absDiff = 0` with `fuel = maxDiff`, modelling `absDiff < maxDiff`). -/
def primeScan (victim : Fin 3) (rhb : Nat) (s : SamplerState)
    (absDiff fuel : Nat) : SamplerState × Bool × List StorageEvent :=
  match fuel with
  | 0 => (s, false, [])
  | fuel + 1 =>
    let r1 := tryDistance s victim rhb absDiff
    if r1.2.1 then (r1.1, true, r1.2.2)
    else
      let r2 := primeScan victim rhb r1.1 (absDiff + 1) fuel
      (r2.1, r2.2.1, r1.2.2 ++ r2.2.2)

/-- `readHeadBlock` as computed by `prime` (`src/AudioStream.h`, lines
158-162). -/
def rhbOf (s : SamplerState) : Nat :=
  if s.sampleIdx ≥ s.introBufSize then (s.sampleIdx - s.introBufSize) / SamplesPerBlock
  else 0

/-- `AudioSamplerStream::prime` (`src/AudioStream.h`, lines 153-217).
Returns the new state, whether a fill was performed, and the storage
transactions issued. -/
def primeFn (s : SamplerState) : SamplerState × Bool × List StorageEvent :=
  let rhb := rhbOf s
  let vm := primeVictim s.bufBlockMap rhb
  if vm.2 > 0 then primeScan vm.1 rhb s 0 vm.2
  else (s, false, [])

/-- `AudioSamplerStream::atEOF` (`src/AudioStream.h`, lines 219-221). -/
def atEOF (s : SamplerState) : Bool :=
  decide (s.sampleIdx ≥ s.file.length)

/-! ## Specification-side definitions -/

/-- The candidate order described by the specification for `prime`'s
search: distances 0, 1, …, `maxDiff`, at each distance the block ahead of
the read head before the block behind it.  Written from the spec's words
(not from the code) for comparison with `primeFn`'s actual behavior. -/
def specCandidateOrder (rhb maxDiff : Nat) : List Int :=
  (List.range (maxDiff + 1)).flatMap fun d => [(rhb : Int) + d, (rhb : Int) - d]

/-- The first candidate the specification's search settles on: scanning
`specCandidateOrder`, *skip* (rather than stop at) candidates that are out
of range or already present in some slot, and pick the first remaining one.
Written from the spec's words for comparison with `primeFn`. -/
def specFirstCandidate (s : SamplerState) : Option Int :=
  let rhb :=
    if s.sampleIdx ≥ s.introBufSize then (s.sampleIdx - s.introBufSize) / SamplesPerBlock
    else 0
  let vm := primeVictim s.bufBlockMap rhb
  ((specCandidateOrder rhb vm.2).filter fun b =>
    decide (0 ≤ b) &&
      decide (b * (SamplesPerBlock : Int) ≤ relLenU64 s.file.length s.introBufSize) &&
      !inMapB s.bufBlockMap b).head?

/-- The operations the cache claims quantify over: a `prime` call or a
`read` call of a given request size. -/
inductive SamplerOp where
  | primeOp
  | readOp (numSamples : Nat)

/-- Apply one operation (discarding delivered counts and traces). -/
def applyOp (s : SamplerState) : SamplerOp → SamplerState
  | .primeOp => (primeFn s).1
  | .readOp n => (samplerRead s n).1

/-- Apply a sequence of operations in order. -/
def applyOps (s : SamplerState) (ops : List SamplerOp) : SamplerState :=
  ops.foldl applyOp s

/-- No two *occupied* slots of the block map hold the same file-block
index. -/
def MapDistinct (map : Fin 3 → Nat) : Prop :=
  ∀ i j : Fin 3, i ≠ j → map i ≠ UnmappedBlock → map i ≠ map j

/-- Iterate `prime` (keeping only the state) `k` times. -/
def primeIter (s : SamplerState) : Nat → SamplerState
  | 0 => s
  | k + 1 => primeIter (primeFn s).1 k

/-- The cache-optimality measure that `prime` strictly decreases on every
fill: the total `labs`-distance of the block-map entries from a given
read-head block. -/
def primeMeasure (map : Fin 3 → Nat) (rhb : Nat) : Nat :=
  absDist (map 0) rhb + absDist (map 1) rhb + absDist (map 2) rhb

/-- Overwrite only the storage cursor and the loader's `_position` of a
sampler state.  `prime` seeks before every read, so its decisions never
consult these two fields; stating its results modulo `withCursor` captures
that. -/
def withCursor (s : SamplerState) (p w : Nat) : SamplerState :=
  { s with file := { s.file with pos := p, wposition := w } }

/-- Invariant of the `open` chunk scan, used to settle the claims about
`data`-before-`fmt ` containers and the sample-count division: before a
`fmt ` chunk is consumed the format is still value-initialized (so its
frame size is 0); a data chunk seen before `fmt ` forces the division to
have used frame size 0; and `_length` always equals the last data chunk's
declared size divided by the frame size in effect at that point. -/
def OpenInv (s : WavLoaderState) : Prop :=
  (s.fmtSeen = false → s.format = WavFormat.init) ∧
  (s.sawDataBeforeFmt = true → s.dataDivZeroAlign = true) ∧
  s.length = s.dataChunkSize / s.alignAtData

/-! ## Concrete containers and states used as inputs to the theorems -/

/-- Little-endian `uint16_t` encoding. -/
def u16le (n : Nat) : Bytes := [n % 256, n / 256 % 256]

/-- Little-endian `uint32_t` encoding. -/
def u32le (n : Nat) : Bytes := [n % 256, n / 256 % 256, n / 65536 % 256, n / 16777216 % 256]

/-- A `fmt ` chunk for mono 16-bit 8000 Hz PCM (frame size 2). -/
def stdFmtChunk : Bytes :=
  FMT_TAG ++ u32le 16 ++ u16le 1 ++ u16le 1 ++ u32le 8000 ++ u32le 16000 ++
    u16le 2 ++ u16le 16

/-- A container whose `data` chunk declares 20 000 000 bytes (10 000 000
samples) but whose actual file holds only 12 245 payload bytes (size
12 289): storage reads at or past byte 12 289 transfer nothing. -/
def fileA : StorageData :=
  mkFile (RIFF_TAG ++ u32le 20000036 ++ WAVE_TAG ++ stdFmtChunk ++ DATA_TAG ++
    u32le 20000000) 12289

/-- A well-formed container: 8 348 data bytes = 4 174 samples, all present
(size 8 392).  After `load`, the lead-in holds 4 074 samples, leaving 100
samples for ring block 0. -/
def fileB : StorageData :=
  mkFile (RIFF_TAG ++ u32le 8384 ++ WAVE_TAG ++ stdFmtChunk ++ DATA_TAG ++
    u32le 8348) 8392

/-- A 44-byte container that ends right after the `data` chunk header while
declaring 1 000 data bytes: the headers parse, but the single lead-in read
transfers 0 bytes. -/
def fileTrunc : StorageData :=
  mkFile (RIFF_TAG ++ u32le 1036 ++ WAVE_TAG ++ stdFmtChunk ++ DATA_TAG ++
    u32le 1000) 44

/-- A container whose `data` chunk (4 payload bytes) precedes its `fmt `
chunk. -/
def fileSwapped : StorageData :=
  mkFile (RIFF_TAG ++ u32le 40 ++ WAVE_TAG ++ DATA_TAG ++ u32le 4 ++
    [0, 0, 0, 0] ++ stdFmtChunk) 48

/-- A container whose `data` chunk declares 5 bytes with a 2-byte frame
size: the declared length is not a multiple of the frame size. -/
def fileOdd : StorageData :=
  mkFile (RIFF_TAG ++ u32le 41 ++ WAVE_TAG ++ stdFmtChunk ++ DATA_TAG ++
    u32le 5) 49

/-- `fileA` loaded and seeked to sample 8170 (read-head block 2). -/
def stateA : SamplerState :=
  setSampleIndex (samplerLoad samplerInit fileA).1 8170

/-- `fileB` loaded, primed once (caching ring block 0), then seeked to
`sampleCount` = 4174. -/
def stateB : SamplerState :=
  setSampleIndex (primeFn (samplerLoad samplerInit fileB).1).1 4174

/-- A loader over a 20 000-byte file with 10 218 samples at offset 44
(mono 16-bit). -/
def wavC : WavLoaderState :=
  { wavInit with
      data := ⟨fun _ => 0, 20000⟩
      format := ⟨1, 1, 8000, 16000, 2, 16⟩
      length := 10218
      data_offset := 44
      file_size := 20000
      fmtSeen := true
      dataChunkSize := 20436
      alignAtData := 2 }

/-- A cache state over `wavC`: lead-in 4 074 samples, cursor at
`sampleCount` (read-head block 3), slots holding blocks 3, 0 and 1 — so
`maxDiff = 3` and block 2 (distance 1, behind) is the only unmapped
in-range block. -/
def stateC : SamplerState where
  file := wavC
  introBufSize := 4074
  sampleIdx := 10218
  bufBlockMap := fun i => if i = 0 then 3 else if i = 1 then 0 else 1

/-- A loader with `dataOffset = 44`, frame size 2 and 100 samples. -/
def wavD : WavLoaderState :=
  { wavInit with
      data := ⟨fun _ => 0, 244⟩
      format := ⟨1, 1, 8000, 16000, 2, 16⟩
      length := 100
      data_offset := 44
      file_size := 244
      fmtSeen := true
      dataChunkSize := 200
      alignAtData := 2 }

/-- A small sampler state with an empty ring cache: 150 samples, 100 of
them mirrored in the lead-in. -/
def stateD : SamplerState where
  file := { wavInit with length := 150 }
  introBufSize := 100
  sampleIdx := 0
  bufBlockMap := fun _ => UnmappedBlock

/-! ## Lemmas about the `open` chunk scan -/

theorem openInv_pos {s : WavLoaderState} (p : Nat) (h : OpenInv s) :
    OpenInv { s with pos := p } :=
  ⟨h.1, h.2.1, h.2.2⟩

theorem openInv_fmt {s : WavLoaderState} (p : Nat) (f : WavFormat) (h : OpenInv s) :
    OpenInv { s with pos := p, format := f, fmtSeen := true } := by
  refine ⟨fun hf => ?_, fun hs => h.2.1 hs, h.2.2⟩
  simp at hf

theorem openInv_data {s : WavLoaderState} (p q sz : Nat) (h : OpenInv s) :
    OpenInv { s with pos := q
                   , length := sz / s.format.block_align
                   , data_offset := p
                   , sawDataBeforeFmt := s.sawDataBeforeFmt || !s.fmtSeen
                   , dataDivZeroAlign := s.dataDivZeroAlign || decide (s.format.block_align = 0)
                   , dataChunkSize := sz
                   , alignAtData := s.format.block_align } := by
  refine ⟨fun hf => h.1 hf, fun hs => ?_, rfl⟩
  simp only [Bool.or_eq_true] at hs ⊢
  rcases hs with hs | hs
  · exact Or.inl (h.2.1 hs)
  · refine Or.inr ?_
    have hfs : s.fmtSeen = false := by
      cases hx : s.fmtSeen
      · rfl
      · rw [hx] at hs; simp at hs
    have hfmt0 : s.format = WavFormat.init := h.1 hfs
    simp [hfmt0, WavFormat.init]

theorem openLoop_inv (fuel : Nat) :
    ∀ s s' : WavLoaderState, OpenInv s → openLoop fuel s = some s' → OpenInv s' := by
  induction fuel with
  | zero =>
    intro s s' _ heq
    simp [openLoop] at heq
  | succ fuel ih =>
    intro s s' h heq
    simp only [openLoop] at heq
    split at heq
    · split at heq
      · split at heq
        · split at heq
          · exact Option.some.inj heq ▸ openInv_fmt _ _ h
          · refine ih _ _ ?_ heq
            exact openInv_fmt _ _ h
        · exact absurd heq (by simp)
      · split at heq
        · split at heq
          · exact Option.some.inj heq ▸ openInv_data _ _ _ h
          · refine ih _ _ ?_ heq
            exact openInv_data _ _ _ h
        · split at heq
          · exact Option.some.inj heq ▸ openInv_pos _ h
          · refine ih _ _ ?_ heq
            exact openInv_pos _ h
    · exact absurd heq (by simp)

theorem wavOpen_inv (data : StorageData) (st : WavLoaderState)
    (h : wavOpen data = some st) : OpenInv st := by
  simp only [wavOpen] at h
  split at h
  · split at h
    · split at h
      · split at h
        · split at h
          · rename_i s1 hloop
            have hinv0 : OpenInv
                { wavInit with
                    data := data, pos := 12,
                    file_size := 8 + leDec ((readBytes data 0 8).drop 4) } := by
              refine ⟨fun _ => rfl, fun hs => ?_, ?_⟩
              · simp [wavInit] at hs
              · simp [wavInit]
            have hinv1 := openLoop_inv _ _ _ hinv0 hloop
            have hst : st = { s1 with wposition := 0 } := (Option.some.inj h).symm
            rw [hst]
            exact ⟨hinv1.1, hinv1.2.1, hinv1.2.2⟩
          · exact absurd h (by simp)
        · exact absurd h (by simp)
      · exact absurd h (by simp)
    · exact absurd h (by simp)
  · exact absurd h (by simp)

/-! ## Claim theorems -/

/-- C4, counterexample: `fileSwapped` is accepted by `open`, its `data`
chunk was processed before any `fmt ` chunk, and the sample-count division
*was* performed with the still-unset (zero) frame size — refuting the claim
that `open` never performs that division with zero frame size when `data`
precedes `fmt `. -/
theorem open_divides_with_zero_frame_size :
    (wavOpen fileSwapped).isSome = true ∧
    ((wavOpen fileSwapped).getD wavInit).sawDataBeforeFmt = true ∧
    ((wavOpen fileSwapped).getD wavInit).dataDivZeroAlign = true := by
  decide

/-- C4 (amended): during `open`, a `data` chunk's declared length is
divided by whatever frame size is currently recorded, whether or not a
`fmt ` chunk has been consumed; for every accepted container in which a
`data` chunk precedes the `fmt ` chunk, that division is performed with the
still-unset (zero) frame size. -/
theorem open_data_before_fmt_divides_by_zero (data : StorageData)
    (st : WavLoaderState) (h : wavOpen data = some st)
    (hsaw : st.sawDataBeforeFmt = true) : st.dataDivZeroAlign = true :=
  (wavOpen_inv data st h).2.1 hsaw

/-- C4, witness for `open_data_before_fmt_divides_by_zero` at
`fileSwapped`. -/
theorem open_data_before_fmt_witness :
    ((wavOpen fileSwapped).getD wavInit).dataDivZeroAlign = true :=
  open_data_before_fmt_divides_by_zero fileSwapped
    ((wavOpen fileSwapped).getD wavInit) (by rfl) (by decide)

/-- C7, counterexample: `fileOdd` is accepted by `open` with a data chunk
of declared length 5 and frame size 2, yet `sampleCount * frameSize = 4 ≠
5` — refuting the exact-equality claim. -/
theorem sample_count_times_frame_size_mismatch :
    (wavOpen fileOdd).isSome = true ∧
    ((wavOpen fileOdd).getD wavInit).length *
        ((wavOpen fileOdd).getD wavInit).format.block_align = 4 ∧
    ((wavOpen fileOdd).getD wavInit).dataChunkSize = 5 := by
  decide

/-- C7 (amended): for every container accepted by `open`,
`sampleCount * frameSize + dataChunkLength % frameSize = dataChunkLength`,
where `frameSize` is the frame size in effect when the (last) `data` chunk
was scanned: partial trailing frames are dropped by the integer division,
and exact equality holds only when the frame size divides the declared
length. -/
theorem sample_count_division_identity (data : StorageData)
    (st : WavLoaderState) (h : wavOpen data = some st) :
    st.length * st.alignAtData + st.dataChunkSize % st.alignAtData =
      st.dataChunkSize := by
  have hlen : st.length = st.dataChunkSize / st.alignAtData :=
    (wavOpen_inv data st h).2.2
  rw [hlen, Nat.mul_comm]
  exact Nat.div_add_mod st.dataChunkSize st.alignAtData

/-- C7, witness for `sample_count_division_identity` at `fileOdd`. -/
theorem sample_count_division_witness :
    ((wavOpen fileOdd).getD wavInit).length *
        ((wavOpen fileOdd).getD wavInit).alignAtData +
      ((wavOpen fileOdd).getD wavInit).dataChunkSize %
        ((wavOpen fileOdd).getD wavInit).alignAtData =
      ((wavOpen fileOdd).getD wavInit).dataChunkSize :=
  sample_count_division_identity fileOdd ((wavOpen fileOdd).getD wavInit)
    (by rfl)

/-- C2: `load` on `fileTrunc` — whose lead-in read transfers 0 bytes —
returns `NoErr` with an empty (size-0) lead-in, even though the inner
`loadIntroBuffer` computed `BadFile`: line 80 of `src/AudioStream.h`
discards `loadIntroBuffer()`'s result, so `load` never reports `BadFile`
for a short or empty lead-in read. -/
theorem load_ignores_lead_in_failure :
    (samplerLoad samplerInit fileTrunc).2 = AudioSamplerError.NoErr ∧
    (samplerLoad samplerInit fileTrunc).1.introBufSize = 0 ∧
    (loadIntroBuffer
        { samplerInit with file := (wavOpen fileTrunc).getD wavInit }).2 =
      AudioSamplerError.BadFile := by
  decide

/-- C6: `WavLoader::seek(3)` on a loader with `dataOffset = 44`, frame size
2 and 100 samples stores the *byte* offset 50 into `_position` (whose
declaration reads `// file position in samples`), so `position()` returns
50, not the clipped sample index `min 3 100 = 3`.  The storage handle is
nevertheless seeked to `dataOffset + clippedIndex * frameSize`, as the
claim says. -/
theorem seek_records_byte_offset_not_sample_index :
    wavPosition (wavSeek wavD 3) = 50 ∧
    (wavSeek wavD 3).pos = wavD.data_offset + 3 * wavD.format.block_align ∧
    wavPosition (wavSeek wavD 3) ≠ min 3 wavD.length := by
  decide

/-- C10: `set_sample_index i` sets the cursor to `i` exactly when
`i < numSamples()` and leaves the state completely unchanged when
`i ≥ numSamples()` — the out-of-range request is silently ignored — while
`setSampleIndex` clips the same request to `numSamples()`. -/
theorem set_sample_index_ignores_out_of_range (s : SamplerState) (i : Nat) :
    (i < s.file.length → set_sample_index s i = { s with sampleIdx := i }) ∧
    (s.file.length ≤ i → set_sample_index s i = s) ∧
    (s.file.length ≤ i →
      setSampleIndex s i = { s with sampleIdx := s.file.length }) := by
  refine ⟨fun h => ?_, fun h => ?_, fun h => ?_⟩
  · simp [set_sample_index, h]
  · simp [set_sample_index, Nat.not_lt.mpr h]
  · simp [setSampleIndex, Nat.min_eq_right h]

/-- C10, witness for `set_sample_index_ignores_out_of_range` at `stateD`
(150 samples): index 3 is taken, index 999 is ignored. -/
theorem set_sample_index_witness :
    set_sample_index stateD 3 = { stateD with sampleIdx := 3 } ∧
    set_sample_index stateD 999 = stateD :=
  ⟨(set_sample_index_ignores_out_of_range stateD 3).1 (by decide),
   (set_sample_index_ignores_out_of_range stateD 999).2.1 (by decide)⟩

/-- C1, counterexample: on `stateA` (a loaded stream whose storage is
shorter than the declared sample count, cursor in block 2), a single
`prime` invocation performs **four** storage reads — the zero-byte reads at
blocks 2 (twice, distance 0 tries the same block ahead and behind) and 3 do
not stop the scan — refuting "at most one storage read per invocation". -/
theorem prime_multiple_storage_reads :
    ((primeFn stateA).2.2.filter StorageEvent.isRead).length = 4 ∧
    ¬((primeFn stateA).2.2.filter StorageEvent.isRead).length ≤ 1 := by
  decide

/-- C3, counterexample: `stateB` is a successfully loaded stream (`fileB`)
whose cursor was set to `sampleCount` after `prime` cached the final,
partial ring block; `read` of 10 samples then delivers 10 samples (serving
bytes past the end of the data), not 0 — refuting the claim. -/
theorem read_past_eof_delivers_samples :
    stateB.sampleIdx = stateB.file.length ∧ (samplerRead stateB 10).2 = 10 := by
  decide

/-- C3 (amended): setting the cursor to `sampleCount` (or beyond, which
clips) and reading delivers 0 samples *provided* the lead-in does not
extend past `sampleCount` and no ring-cache slot holds the file block
containing relative index `sampleCount − introBufSize`; when `prime` has
cached that block (as in `read_past_eof_delivers_samples`), `read` serves
samples from it even past end-of-stream. -/
theorem read_at_eof_zero_of_block_absent (s : SamplerState) (j n : Nat)
    (hintro : s.introBufSize ≤ s.file.length) (hj : s.file.length ≤ j)
    (hmap : ∀ i : Fin 3,
      s.bufBlockMap i ≠ (s.file.length - s.introBufSize) / SamplesPerBlock) :
    (samplerRead (setSampleIndex s j) n).2 = 0 := by
  unfold setSampleIndex samplerRead
  have hidx : min j s.file.length = s.file.length := Nat.min_eq_right hj
  simp only [hidx]
  have hip : ¬(s.file.length < s.introBufSize) := Nat.not_lt.mpr hintro
  simp only [hip, if_false]
  have hfind : findSlot s.bufBlockMap
      ((s.file.length - s.introBufSize) / SamplesPerBlock) = none := by
    unfold findSlot
    simp [hmap 0, hmap 1, hmap 2]
  cases n with
  | zero => rfl
  | succ n =>
    rw [readLoop]
    simp [hfind]

/-- C3, witness for `read_at_eof_zero_of_block_absent` at `stateD` with an
out-of-range seek target 999 and a 7-sample request. -/
theorem read_at_eof_zero_witness :
    (samplerRead (setSampleIndex stateD 999) 7).2 = 0 :=
  read_at_eof_zero_of_block_absent stateD 999 7 (by decide) (by decide)
    (by decide)

/-- C5, counterexample: on `stateC` (`maxDiff = 3`, read-head block 3,
slots holding 3, 0, 1), block 2 is unmapped, in range, at distance 1, and
its storage read would transfer bytes — the specification's skip-based
search picks it — yet `prime` performs no storage transaction at all and
reports no fill, because the out-of-range ahead candidate 4 at distance 1
`break`s the sign loop and abandons every behind candidate. -/
theorem prime_abandons_behind_candidates :
    (primeFn stateC).2.1 = false ∧
    (primeFn stateC).2.2 = [] ∧
    specFirstCandidate stateC = some 2 ∧
    (fillAttempt stateC 1 2).2.1 = true := by
  decide

/-! ### C1 (amended): at most one successful storage read per `prime` call -/

theorem fillAttempt_posReads (s : SamplerState) (v : Fin 3) (b : Int) :
    (fillAttempt s v b).2.2.countP StorageEvent.isPositiveRead ≤ 1 ∧
    ((fillAttempt s v b).2.1 = false →
      (fillAttempt s v b).2.2.countP StorageEvent.isPositiveRead = 0) := by
  simp only [fillAttempt]
  split
  · rename_i h
    refine ⟨?_, fun hf => ?_⟩
    · simp [List.countP_cons, StorageEvent.isPositiveRead, h]
    · simp at hf
  · rename_i h
    refine ⟨?_, fun _ => ?_⟩
    · simp [List.countP_cons, StorageEvent.isPositiveRead, h]
    · simp [List.countP_cons, StorageEvent.isPositiveRead, h]

theorem tryCand_posReads (s : SamplerState) (v : Fin 3) (b : Int) :
    (tryCand s v b).2.2.countP StorageEvent.isPositiveRead ≤ 1 ∧
    ((tryCand s v b).2.1 ≠ TryOutcome.filled →
      (tryCand s v b).2.2.countP StorageEvent.isPositiveRead = 0) := by
  unfold tryCand
  split
  · simp
  · split
    · simp
    · split
      · simp
      · have h := fillAttempt_posReads s v b
        dsimp only
        refine ⟨h.1, fun hne => ?_⟩
        cases hb : (fillAttempt s v b).2.1 with
        | false => exact h.2 hb
        | true => rw [hb] at hne; simp at hne

theorem tryDistance_posReads (s : SamplerState) (v : Fin 3) (rhb d : Nat) :
    (tryDistance s v rhb d).2.2.countP StorageEvent.isPositiveRead ≤ 1 ∧
    ((tryDistance s v rhb d).2.1 = false →
      (tryDistance s v rhb d).2.2.countP StorageEvent.isPositiveRead = 0) := by
  unfold tryDistance
  have h1 := tryCand_posReads s v ((rhb : Int) + d)
  cases ho1 : (tryCand s v ((rhb : Int) + d)).2.1 with
  | filled =>
    simp only [ho1]
    exact ⟨h1.1, fun hf => by simp at hf⟩
  | blocked =>
    simp only [ho1]
    exact ⟨h1.1, fun _ => h1.2 (by rw [ho1]; simp)⟩
  | passed =>
    simp only [ho1]
    have hc1 : (tryCand s v ((rhb : Int) + d)).2.2.countP StorageEvent.isPositiveRead = 0 :=
      h1.2 (by rw [ho1]; simp)
    have h2 := tryCand_posReads (tryCand s v ((rhb : Int) + d)).1 v ((rhb : Int) - d)
    cases ho2 : (tryCand (tryCand s v ((rhb : Int) + d)).1 v ((rhb : Int) - d)).2.1 with
    | filled =>
      simp only [ho2, List.countP_append, hc1]
      exact ⟨by simpa using h2.1, fun hf => by simp at hf⟩
    | blocked =>
      simp only [ho2, List.countP_append, hc1]
      have hc2 := h2.2 (by rw [ho2]; simp)
      exact ⟨by simp [hc2], fun _ => by simp [hc2]⟩
    | passed =>
      simp only [ho2, List.countP_append, hc1]
      have hc2 := h2.2 (by rw [ho2]; simp)
      exact ⟨by simp [hc2], fun _ => by simp [hc2]⟩

theorem primeScan_posReads (v : Fin 3) (rhb : Nat) :
    ∀ (fuel d : Nat) (s : SamplerState),
      (primeScan v rhb s d fuel).2.2.countP StorageEvent.isPositiveRead ≤ 1 ∧
      ((primeScan v rhb s d fuel).2.1 = false →
        (primeScan v rhb s d fuel).2.2.countP StorageEvent.isPositiveRead = 0) := by
  intro fuel
  induction fuel with
  | zero =>
    intro d s
    simp [primeScan]
  | succ fuel ih =>
    intro d s
    rw [primeScan]
    dsimp only
    have hd := tryDistance_posReads s v rhb d
    cases h1 : (tryDistance s v rhb d).2.1 with
    | true =>
      simp only [h1]
      exact ⟨hd.1, fun hf => by simp at hf⟩
    | false =>
      simp only [h1, Bool.false_eq_true, if_false]
      have hc1 := hd.2 h1
      have hr := ih (d + 1) (tryDistance s v rhb d).1
      refine ⟨?_, fun hf => ?_⟩
      · simp only [List.countP_append, hc1]
        simpa using hr.1
      · simp only [List.countP_append, hc1]
        simpa using hr.2 hf

/-- C1 (amended): every `prime` invocation performs at most one
*successful* storage read — one that transfers at least one byte; the
moment a read transfers data, `prime` publishes the block and returns.
(Additional zero-byte read transactions can precede it, as
`prime_multiple_storage_reads` shows.) -/
theorem prime_at_most_one_positive_read (s : SamplerState) :
    (primeFn s).2.2.countP StorageEvent.isPositiveRead ≤ 1 := by
  rw [primeFn]
  split
  · exact (primeScan_posReads _ _ _ _ _).1
  · simp

/-! ### C5 (amended): an out-of-range ahead candidate ends the search -/

/-- C5 (amended): `prime`'s scan *abandons* rather than skips on an
out-of-range candidate — from any distance `d` whose ahead candidate
`readHeadBlock + d` lies beyond the last block of the stream, the scan
examines no candidate (ahead or behind) at distance `d` or beyond,
performs no storage transaction, and leaves the state untouched, no
matter how much `fuel` (distance budget up to `maxDiff`) remains. -/
theorem prime_scan_stops_at_out_of_range_ahead (s : SamplerState)
    (v : Fin 3) (rhb d fuel : Nat)
    (h : ((rhb : Int) + d) * SamplesPerBlock >
      relLenU64 s.file.length s.introBufSize) :
    primeScan v rhb s d fuel = (s, false, []) := by
  induction fuel generalizing d with
  | zero => rfl
  | succ fuel ih =>
    have hcand : tryCand s v ((rhb : Int) + d) = (s, TryOutcome.blocked, []) := by
      unfold tryCand
      rw [if_neg (by omega), if_pos h]
    have hdist : tryDistance s v rhb d = (s, false, []) := by
      unfold tryDistance
      rw [hcand]
    have hnext : ((rhb : Int) + (d + 1 : Nat)) * SamplesPerBlock >
        relLenU64 s.file.length s.introBufSize := by
      have hstep : ((rhb : Int) + (d + 1 : Nat)) * SamplesPerBlock =
          ((rhb : Int) + d) * SamplesPerBlock + SamplesPerBlock := by
        push_cast
        ring
      have hpos : (0 : Int) ≤ SamplesPerBlock := by positivity
      rw [hstep]
      omega
    rw [primeScan, hdist]
    simp [ih (d + 1) hnext]

/-- C5, witness for `prime_scan_stops_at_out_of_range_ahead` on `stateC`
at distance 1 with the full remaining budget 2: block 4 is out of range, so
the scan ends although block 2 (distance 1, behind) is unmapped and in
range. -/
theorem prime_scan_stops_witness :
    primeScan 1 3 stateC 1 2 = (stateC, false, []) :=
  prime_scan_stops_at_out_of_range_ahead stateC 1 3 1 2 (by decide)

/-! ### C8: no two occupied slots hold the same file-block index -/

theorem fillAttempt_map (s : SamplerState) (v : Fin 3) (b : Int) :
    ((fillAttempt s v b).2.1 = true ∧
      (fillAttempt s v b).1.bufBlockMap =
        Function.update s.bufBlockMap v b.toNat) ∨
    ((fillAttempt s v b).2.1 = false ∧
      (fillAttempt s v b).1.bufBlockMap = s.bufBlockMap) := by
  simp only [fillAttempt]
  split
  · exact Or.inl ⟨rfl, rfl⟩
  · exact Or.inr ⟨rfl, rfl⟩

theorem tryCand_map (s : SamplerState) (v : Fin 3) (b : Int) :
    ((tryCand s v b).2.1 ≠ TryOutcome.filled ∧
      (tryCand s v b).1.bufBlockMap = s.bufBlockMap) ∨
    ((tryCand s v b).2.1 = TryOutcome.filled ∧ 0 ≤ b ∧
      inMapB s.bufBlockMap b = false ∧
      (tryCand s v b).1.bufBlockMap =
        Function.update s.bufBlockMap v b.toNat) := by
  unfold tryCand
  split
  · exact Or.inl ⟨by simp, rfl⟩
  · split
    · exact Or.inl ⟨by simp, rfl⟩
    · split
      · exact Or.inl ⟨by simp, rfl⟩
      · rename_i hbneg hrange hm
        dsimp only
        rcases fillAttempt_map s v b with ⟨hf, hmap⟩ | ⟨hf, hmap⟩
        · refine Or.inr ⟨?_, by omega, by simpa using hm, hmap⟩
          rw [hf]
          rfl
        · refine Or.inl ⟨?_, hmap⟩
          rw [hf]
          simp

theorem tryDistance_map (s : SamplerState) (v : Fin 3) (rhb d : Nat) :
    ((tryDistance s v rhb d).2.1 = false ∧
      (tryDistance s v rhb d).1.bufBlockMap = s.bufBlockMap) ∨
    ((tryDistance s v rhb d).2.1 = true ∧ ∃ b : Int, 0 ≤ b ∧
      inMapB s.bufBlockMap b = false ∧
      (tryDistance s v rhb d).1.bufBlockMap =
        Function.update s.bufBlockMap v b.toNat) := by
  unfold tryDistance
  cases ho1 : (tryCand s v ((rhb : Int) + d)).2.1 with
  | filled =>
    simp only [ho1]
    rcases tryCand_map s v ((rhb : Int) + d) with ⟨hno, _⟩ | ⟨_, hb, hnm, hm⟩
    · exact absurd ho1 hno
    · exact Or.inr ⟨by simp, _, hb, hnm, hm⟩
  | blocked =>
    simp only [ho1]
    rcases tryCand_map s v ((rhb : Int) + d) with ⟨_, hm⟩ | ⟨hf, _⟩
    · exact Or.inl ⟨by simp, hm⟩
    · rw [ho1] at hf; simp at hf
  | passed =>
    simp only [ho1]
    rcases tryCand_map s v ((rhb : Int) + d) with ⟨_, hm1⟩ | ⟨hf, _⟩
    · cases ho2 : (tryCand (tryCand s v ((rhb : Int) + d)).1 v ((rhb : Int) - d)).2.1 with
      | filled =>
        simp only [ho2]
        rcases tryCand_map (tryCand s v ((rhb : Int) + d)).1 v ((rhb : Int) - d) with
          ⟨hno, _⟩ | ⟨_, hb, hnm, hm2⟩
        · exact absurd ho2 hno
        · rw [hm1] at hnm hm2
          exact Or.inr ⟨by simp, _, hb, hnm, hm2⟩
      | blocked =>
        simp only [ho2]
        rcases tryCand_map (tryCand s v ((rhb : Int) + d)).1 v ((rhb : Int) - d) with
          ⟨_, hm2⟩ | ⟨hf2, _⟩
        · rw [hm1] at hm2
          exact Or.inl ⟨by simp, hm2⟩
        · rw [ho2] at hf2; simp at hf2
      | passed =>
        simp only [ho2]
        rcases tryCand_map (tryCand s v ((rhb : Int) + d)).1 v ((rhb : Int) - d) with
          ⟨_, hm2⟩ | ⟨hf2, _⟩
        · rw [hm1] at hm2
          exact Or.inl ⟨by simp, hm2⟩
        · rw [ho2] at hf2; simp at hf2
    · rw [ho1] at hf; simp at hf

theorem primeScan_map (v : Fin 3) (rhb : Nat) :
    ∀ (fuel d : Nat) (s : SamplerState),
      ((primeScan v rhb s d fuel).2.1 = false ∧
        (primeScan v rhb s d fuel).1.bufBlockMap = s.bufBlockMap) ∨
      ((primeScan v rhb s d fuel).2.1 = true ∧ ∃ b : Int, 0 ≤ b ∧
        inMapB s.bufBlockMap b = false ∧
        (primeScan v rhb s d fuel).1.bufBlockMap =
          Function.update s.bufBlockMap v b.toNat) := by
  intro fuel
  induction fuel with
  | zero =>
    intro d s
    exact Or.inl ⟨rfl, rfl⟩
  | succ fuel ih =>
    intro d s
    rw [primeScan]
    dsimp only
    cases h1 : (tryDistance s v rhb d).2.1 with
    | true =>
      simp only [h1]
      rcases tryDistance_map s v rhb d with ⟨hf, _⟩ | ⟨_, b, hb, hnm, hm⟩
      · rw [h1] at hf; simp at hf
      · exact Or.inr ⟨by simp, b, hb, hnm, hm⟩
    | false =>
      simp only [h1, Bool.false_eq_true, if_false]
      rcases tryDistance_map s v rhb d with ⟨_, hm1⟩ | ⟨hf, _⟩
      · rcases ih (d + 1) (tryDistance s v rhb d).1 with ⟨hf2, hm2⟩ | ⟨hf2, b, hb, hnm, hm2⟩
        · rw [hm1] at hm2
          exact Or.inl ⟨by simpa using hf2, hm2⟩
        · rw [hm1] at hnm hm2
          exact Or.inr ⟨by simpa using hf2, b, hb, hnm, hm2⟩
      · rw [h1] at hf; simp at hf

theorem primeFn_map (s : SamplerState) :
    (primeFn s).1.bufBlockMap = s.bufBlockMap ∨
    ∃ (v : Fin 3) (b : Int), 0 ≤ b ∧ inMapB s.bufBlockMap b = false ∧
      (primeFn s).1.bufBlockMap = Function.update s.bufBlockMap v b.toNat := by
  rw [primeFn]
  split
  · rcases primeScan_map (primeVictim s.bufBlockMap (rhbOf s)).1 (rhbOf s)
        (primeVictim s.bufBlockMap (rhbOf s)).2 0 s with ⟨_, hm⟩ | ⟨_, b, hb, hnm, hm⟩
    · exact Or.inl hm
    · exact Or.inr ⟨_, b, hb, hnm, hm⟩
  · exact Or.inl rfl

theorem mapDistinct_update {map : Fin 3 → Nat} {v : Fin 3} {b : Int}
    (hd : MapDistinct map) (hb : 0 ≤ b) (hnm : inMapB map b = false) :
    MapDistinct (Function.update map v b.toNat) := by
  have hne : ∀ i : Fin 3, map i ≠ b.toNat := by
    intro i hcontra
    have hcast : (map i : Int) = b := by
      rw [hcontra]
      exact Int.toNat_of_nonneg hb
    simp only [inMapB, Bool.or_eq_false_iff, decide_eq_false_iff_not] at hnm
    fin_cases i
    · exact hnm.1.1 hcast
    · exact hnm.1.2 hcast
    · exact hnm.2 hcast
  intro i j hij hocc
  by_cases hi : i = v
  · by_cases hj : j = v
    · exact absurd (hi.trans hj.symm) hij
    · rw [hi, Function.update_same, Function.update_noteq hj]
      exact fun hcontra => hne j hcontra.symm
  · by_cases hj : j = v
    · rw [Function.update_noteq hi, hj, Function.update_same]
      exact hne i
    · rw [Function.update_noteq hi, Function.update_noteq hj]
      rw [Function.update_noteq hi] at hocc
      exact hd i j hij hocc

theorem samplerRead_map (s : SamplerState) (n : Nat) :
    (samplerRead s n).1.bufBlockMap = s.bufBlockMap := rfl

theorem samplerLoad_map (s : SamplerState) (data : StorageData)
    (s0 : SamplerState) (h : samplerLoad s data = (s0, AudioSamplerError.NoErr)) :
    s0.bufBlockMap = fun _ => UnmappedBlock := by
  unfold samplerLoad at h
  split at h
  · injection h with h1 h2
    exact absurd h2 (by simp)
  · split at h
    · injection h with h1 h2
      exact absurd h2 (by simp)
    · injection h with h1 h2
      rw [← h1]

theorem mapDistinct_applyOps (ops : List SamplerOp) :
    ∀ t : SamplerState, MapDistinct t.bufBlockMap →
      MapDistinct (applyOps t ops).bufBlockMap := by
  induction ops with
  | nil => exact fun t ht => ht
  | cons op ops ih =>
    intro t ht
    show MapDistinct (applyOps (applyOp t op) ops).bufBlockMap
    apply ih
    cases op with
    | primeOp =>
      show MapDistinct (primeFn t).1.bufBlockMap
      rcases primeFn_map t with hm | ⟨v, b, hb, hnm, hm⟩
      · rw [hm]; exact ht
      · rw [hm]; exact mapDistinct_update ht hb hnm
    | readOp n =>
      show MapDistinct (samplerRead t n).1.bufBlockMap
      rw [samplerRead_map]
      exact ht

/-- C8: starting from any successful `load` — which marks every slot
unmapped — after any sequence of `prime` and `read` calls, no two occupied
slots of the block map hold the same file-block index: `prime` fills a
slot only with a block its scan verified to be absent from every slot. -/
theorem block_map_distinct_after_ops (data : StorageData)
    (s s0 : SamplerState) (ops : List SamplerOp)
    (h : samplerLoad s data = (s0, AudioSamplerError.NoErr)) :
    MapDistinct (applyOps s0 ops).bufBlockMap := by
  apply mapDistinct_applyOps
  rw [samplerLoad_map s data s0 h]
  intro i j hij hocc
  exact absurd rfl hocc

/-- C8, witness for `block_map_distinct_after_ops`: `fileB` loaded, then a
`prime` and a 5-sample `read`. -/
theorem block_map_distinct_witness :
    MapDistinct (applyOps (samplerLoad samplerInit fileB).1
      [SamplerOp.primeOp, SamplerOp.readOp 5]).bufBlockMap :=
  block_map_distinct_after_ops fileB samplerInit
    (samplerLoad samplerInit fileB).1 [SamplerOp.primeOp, SamplerOp.readOp 5]
    (by rfl)

/-! ### C9: repeated `prime` reaches a stable no-fill fixed point

`prime` seeks before every storage read, so its result is independent of
the storage cursor; the lemmas below make that precise (`withCursor`), then
a measure argument shows every fill strictly decreases the total distance
of the block map from the read head. -/

theorem withCursor_self (s : SamplerState) :
    withCursor s s.file.pos s.file.wposition = s := rfl

theorem fillAttempt_cursor (s : SamplerState) (p w : Nat) (v : Fin 3) (b : Int) :
    fillAttempt (withCursor s p w) v b = fillAttempt s v b := rfl

theorem withCursor_length (s : SamplerState) (p w : Nat) :
    (withCursor s p w).file.length = s.file.length := rfl

theorem withCursor_intro (s : SamplerState) (p w : Nat) :
    (withCursor s p w).introBufSize = s.introBufSize := rfl

theorem withCursor_map (s : SamplerState) (p w : Nat) :
    (withCursor s p w).bufBlockMap = s.bufBlockMap := rfl

theorem withCursor_sampleIdx (s : SamplerState) (p w : Nat) :
    (withCursor s p w).sampleIdx = s.sampleIdx := rfl

theorem tryCand_cursor (s : SamplerState) (p w : Nat) (v : Fin 3) (b : Int) :
    ∃ p2 w2, tryCand (withCursor s p w) v b =
      (withCursor (tryCand s v b).1 p2 w2, (tryCand s v b).2) := by
  by_cases h1 : b < 0
  · exact ⟨p, w, by simp [tryCand, h1]⟩
  · by_cases h2 : b * (SamplesPerBlock : Int) >
        relLenU64 s.file.length s.introBufSize
    · exact ⟨p, w, by simp [tryCand, withCursor_length, withCursor_intro, h1, h2]⟩
    · by_cases h3 : inMapB s.bufBlockMap b
      · exact ⟨p, w, by simp [tryCand, withCursor_length, withCursor_intro,
          withCursor_map, h1, h2, h3]⟩
      · refine ⟨(fillAttempt s v b).1.file.pos,
          (fillAttempt s v b).1.file.wposition, ?_⟩
        simp only [tryCand, withCursor_length, withCursor_intro, withCursor_map,
          h1, h2, h3, if_false, Bool.false_eq_true]
        rw [fillAttempt_cursor, withCursor_self]

theorem tryDistance_cursor (s : SamplerState) (p w : Nat) (v : Fin 3)
    (rhb d : Nat) :
    ∃ p2 w2, tryDistance (withCursor s p w) v rhb d =
      (withCursor (tryDistance s v rhb d).1 p2 w2, (tryDistance s v rhb d).2) := by
  unfold tryDistance
  obtain ⟨pa, wa, ha⟩ := tryCand_cursor s p w v ((rhb : Int) + d)
  rw [ha]
  cases ho1 : (tryCand s v ((rhb : Int) + d)).2.1 with
  | filled => exact ⟨pa, wa, by simp [ho1]⟩
  | blocked => exact ⟨pa, wa, by simp [ho1]⟩
  | passed =>
    simp only [ho1]
    obtain ⟨pb, wb, hb⟩ := tryCand_cursor (tryCand s v ((rhb : Int) + d)).1 pa wa v
      ((rhb : Int) - d)
    rw [hb]
    exact ⟨pb, wb, rfl⟩

theorem primeScan_cursor (v : Fin 3) (rhb : Nat) :
    ∀ (fuel d : Nat) (s : SamplerState) (p w : Nat),
      ∃ p2 w2, primeScan v rhb (withCursor s p w) d fuel =
        (withCursor (primeScan v rhb s d fuel).1 p2 w2,
         (primeScan v rhb s d fuel).2) := by
  intro fuel
  induction fuel with
  | zero => exact fun d s p w => ⟨p, w, rfl⟩
  | succ fuel ih =>
    intro d s p w
    rw [primeScan, primeScan]
    dsimp only
    obtain ⟨pa, wa, ha⟩ := tryDistance_cursor s p w v rhb d
    rw [ha]
    cases h1 : (tryDistance s v rhb d).2.1 with
    | true => exact ⟨pa, wa, by simp [h1]⟩
    | false =>
      simp only [h1, Bool.false_eq_true, if_false]
      obtain ⟨pb, wb, hb⟩ := ih (d + 1) (tryDistance s v rhb d).1 pa wa
      rw [hb]
      exact ⟨pb, wb, rfl⟩

theorem primeFn_cursor (s : SamplerState) (p w : Nat) :
    ∃ p2 w2, primeFn (withCursor s p w) =
      (withCursor (primeFn s).1 p2 w2, (primeFn s).2) := by
  rw [primeFn, primeFn]
  have hr : rhbOf (withCursor s p w) = rhbOf s := rfl
  have hm : (withCursor s p w).bufBlockMap = s.bufBlockMap := rfl
  rw [hr, hm]
  split
  · exact primeScan_cursor _ _ _ _ s p w
  · exact ⟨p, w, rfl⟩

theorem fillAttempt_shape (s : SamplerState) (v : Fin 3) (b : Int) :
    ∃ p w M, (fillAttempt s v b).1 =
      withCursor { s with bufBlockMap := M } p w := by
  simp only [fillAttempt, wavSeek, wavRead, withCursor]
  split
  · exact ⟨_, _, _, rfl⟩
  · exact ⟨_, _, s.bufBlockMap, rfl⟩

theorem tryCand_shape (s : SamplerState) (v : Fin 3) (b : Int) :
    ∃ p w M, (tryCand s v b).1 =
      withCursor { s with bufBlockMap := M } p w := by
  have hself : withCursor { s with bufBlockMap := s.bufBlockMap }
      s.file.pos s.file.wposition = s := rfl
  by_cases h1 : b < 0
  · exact ⟨s.file.pos, s.file.wposition, s.bufBlockMap,
      by simp [tryCand, h1, hself]⟩
  · by_cases h2 : b * (SamplesPerBlock : Int) >
        relLenU64 s.file.length s.introBufSize
    · exact ⟨s.file.pos, s.file.wposition, s.bufBlockMap,
        by simp [tryCand, h1, h2, hself]⟩
    · by_cases h3 : inMapB s.bufBlockMap b
      · exact ⟨s.file.pos, s.file.wposition, s.bufBlockMap,
          by simp [tryCand, h1, h2, h3, hself]⟩
      · obtain ⟨p, w, M, hm⟩ := fillAttempt_shape s v b
        refine ⟨p, w, M, ?_⟩
        simp only [tryCand, h1, h2, h3, if_false, Bool.false_eq_true]
        exact hm

theorem tryDistance_shape (s : SamplerState) (v : Fin 3) (rhb d : Nat) :
    ∃ p w M, (tryDistance s v rhb d).1 =
      withCursor { s with bufBlockMap := M } p w := by
  unfold tryDistance
  obtain ⟨p1, w1, M1, hm1⟩ := tryCand_shape s v ((rhb : Int) + d)
  cases ho1 : (tryCand s v ((rhb : Int) + d)).2.1 with
  | filled => exact ⟨p1, w1, M1, by simp only [ho1]; exact hm1⟩
  | blocked => exact ⟨p1, w1, M1, by simp only [ho1]; exact hm1⟩
  | passed =>
    simp only [ho1]
    obtain ⟨p2, w2, M2, hm2⟩ :=
      tryCand_shape (tryCand s v ((rhb : Int) + d)).1 v ((rhb : Int) - d)
    refine ⟨p2, w2, M2, ?_⟩
    calc (tryCand (tryCand s v ((rhb : Int) + d)).1 v ((rhb : Int) - d)).1
        = withCursor { (tryCand s v ((rhb : Int) + d)).1 with
            bufBlockMap := M2 } p2 w2 := hm2
      _ = withCursor { s with bufBlockMap := M2 } p2 w2 := by rw [hm1]; rfl

theorem primeScan_shape (v : Fin 3) (rhb : Nat) :
    ∀ (fuel d : Nat) (s : SamplerState), ∃ p w M,
      (primeScan v rhb s d fuel).1 =
        withCursor { s with bufBlockMap := M } p w := by
  intro fuel
  induction fuel with
  | zero =>
    intro d s
    exact ⟨s.file.pos, s.file.wposition, s.bufBlockMap, rfl⟩
  | succ fuel ih =>
    intro d s
    rw [primeScan]
    dsimp only
    cases h1 : (tryDistance s v rhb d).2.1 with
    | true =>
      simp only [h1, if_true]
      exact tryDistance_shape s v rhb d
    | false =>
      simp only [h1, Bool.false_eq_true, if_false]
      obtain ⟨p1, w1, M1, hm1⟩ := tryDistance_shape s v rhb d
      obtain ⟨p2, w2, M2, hm2⟩ := ih (d + 1) (tryDistance s v rhb d).1
      refine ⟨p2, w2, M2, ?_⟩
      calc (primeScan v rhb (tryDistance s v rhb d).1 (d + 1) fuel).1
          = withCursor { (tryDistance s v rhb d).1 with
              bufBlockMap := M2 } p2 w2 := hm2
        _ = withCursor { s with bufBlockMap := M2 } p2 w2 := by rw [hm1]; rfl

theorem primeFn_shape (s : SamplerState) :
    ∃ p w M, (primeFn s).1 = withCursor { s with bufBlockMap := M } p w := by
  rw [primeFn]
  split
  · exact primeScan_shape _ _ _ _ _
  · exact ⟨s.file.pos, s.file.wposition, s.bufBlockMap, rfl⟩

theorem primeFn_sampleIdx (s : SamplerState) :
    (primeFn s).1.sampleIdx = s.sampleIdx := by
  obtain ⟨p, w, M, hm⟩ := primeFn_shape s
  rw [hm]
  rfl

theorem primeFn_intro (s : SamplerState) :
    (primeFn s).1.introBufSize = s.introBufSize := by
  obtain ⟨p, w, M, hm⟩ := primeFn_shape s
  rw [hm]
  rfl

theorem primeFn_rhb (s : SamplerState) : rhbOf (primeFn s).1 = rhbOf s := by
  unfold rhbOf
  rw [primeFn_sampleIdx, primeFn_intro]

theorem primeFn_noFill_map (s : SamplerState) (h : (primeFn s).2.1 = false) :
    (primeFn s).1.bufBlockMap = s.bufBlockMap := by
  rw [primeFn] at h ⊢
  by_cases hvm : (primeVictim s.bufBlockMap (rhbOf s)).2 > 0
  · simp only [hvm, if_true] at h ⊢
    rcases primeScan_map (primeVictim s.bufBlockMap (rhbOf s)).1 (rhbOf s)
        (primeVictim s.bufBlockMap (rhbOf s)).2 0 s with ⟨_, hm⟩ | ⟨hf, _⟩
    · exact hm
    · rw [h] at hf
      simp at hf
  · simp only [hvm, if_false]

theorem primeFn_noFill_shape (s : SamplerState) (h : (primeFn s).2.1 = false) :
    ∃ p w, (primeFn s).1 = withCursor s p w := by
  obtain ⟨p, w, M, hm⟩ := primeFn_shape s
  have hM : M = s.bufBlockMap := by
    have h1 : (primeFn s).1.bufBlockMap = M := by rw [hm]; rfl
    rw [primeFn_noFill_map s h] at h1
    exact h1.symm
  rw [hM] at hm
  exact ⟨p, w, hm⟩

theorem primeIter_succ_back (m : Nat) :
    ∀ s : SamplerState, primeIter s (m + 1) = (primeFn (primeIter s m)).1 := by
  induction m with
  | zero => exact fun s => rfl
  | succ m ih =>
    intro s
    exact ih (primeFn s).1

theorem primeIter_cursor (m : Nat) :
    ∀ (s : SamplerState) (p w : Nat),
      ∃ p2 w2, primeIter (withCursor s p w) m =
        withCursor (primeIter s m) p2 w2 := by
  induction m with
  | zero => exact fun s p w => ⟨p, w, rfl⟩
  | succ m ih =>
    intro s p w
    obtain ⟨p2, w2, hc⟩ := primeFn_cursor s p w
    obtain ⟨p3, w3, h3⟩ := ih (primeFn s).1 p2 w2
    refine ⟨p3, w3, ?_⟩
    show primeIter (primeFn (withCursor s p w)).1 m =
      withCursor (primeIter (primeFn s).1 m) p3 w3
    rw [hc]
    exact h3

theorem prime_false_stable (s : SamplerState) (h : (primeFn s).2.1 = false) :
    ∀ m, ∃ p w, primeIter s m = withCursor s p w := by
  intro m
  induction m with
  | zero => exact ⟨s.file.pos, s.file.wposition, (withCursor_self s).symm⟩
  | succ m ih =>
    obtain ⟨p, w, hm⟩ := ih
    obtain ⟨ps, ws, hs⟩ := primeFn_noFill_shape s h
    obtain ⟨p2, w2, hc⟩ := primeFn_cursor s p w
    refine ⟨p2, w2, ?_⟩
    rw [primeIter_succ_back, hm, hc]
    show withCursor (primeFn s).1 p2 w2 = withCursor s p2 w2
    rw [hs]
    rfl

theorem primeIter_stable_of_noFill (s : SamplerState)
    (h : (primeFn s).2.1 = false) (m : Nat) :
    (primeFn (primeIter s m)).2.1 = false ∧
    (primeIter s m).bufBlockMap = s.bufBlockMap := by
  obtain ⟨p, w, hm⟩ := prime_false_stable s h m
  obtain ⟨p2, w2, hc⟩ := primeFn_cursor s p w
  constructor
  · rw [hm, hc]
    exact h
  · rw [hm]
    rfl

theorem primeIter_sampleIdx (m : Nat) :
    ∀ s : SamplerState, (primeIter s m).sampleIdx = s.sampleIdx := by
  induction m with
  | zero => exact fun s => rfl
  | succ m ih =>
    intro s
    rw [primeIter_succ_back, primeFn_sampleIdx]
    exact ih s

theorem tryDistance_fill (s : SamplerState) (v : Fin 3) (rhb d : Nat)
    (h : (tryDistance s v rhb d).2.1 = true) :
    ∃ b : Int, (b = (rhb : Int) + d ∨ b = (rhb : Int) - d) ∧ 0 ≤ b ∧
      inMapB s.bufBlockMap b = false ∧
      (tryDistance s v rhb d).1.bufBlockMap =
        Function.update s.bufBlockMap v b.toNat := by
  unfold tryDistance at h ⊢
  cases ho1 : (tryCand s v ((rhb : Int) + d)).2.1 with
  | filled =>
    simp only [ho1]
    rcases tryCand_map s v ((rhb : Int) + d) with ⟨hno, _⟩ | ⟨_, hb, hnm, hm⟩
    · exact absurd ho1 hno
    · exact ⟨_, Or.inl rfl, hb, hnm, hm⟩
  | blocked =>
    simp only [ho1] at h
    simp at h
  | passed =>
    simp only [ho1] at h
    simp only [ho1]
    rcases tryCand_map s v ((rhb : Int) + d) with ⟨_, hm1⟩ | ⟨hf, _⟩
    · cases ho2 : (tryCand (tryCand s v ((rhb : Int) + d)).1 v
          ((rhb : Int) - d)).2.1 with
      | filled =>
        rcases tryCand_map (tryCand s v ((rhb : Int) + d)).1 v ((rhb : Int) - d)
          with ⟨hno, _⟩ | ⟨_, hb, hnm, hm2⟩
        · exact absurd ho2 hno
        · rw [hm1] at hnm hm2
          exact ⟨_, Or.inr rfl, hb, hnm, hm2⟩
      | blocked =>
        simp only [ho2] at h
        simp at h
      | passed =>
        simp only [ho2] at h
        simp at h
    · rw [ho1] at hf
      simp at hf

theorem primeScan_fill (v : Fin 3) (rhb : Nat) :
    ∀ (fuel d : Nat) (s : SamplerState),
      (primeScan v rhb s d fuel).2.1 = true →
      ∃ (e : Nat) (b : Int), d ≤ e ∧ e < d + fuel ∧
        (b = (rhb : Int) + e ∨ b = (rhb : Int) - e) ∧ 0 ≤ b ∧
        inMapB s.bufBlockMap b = false ∧
        (primeScan v rhb s d fuel).1.bufBlockMap =
          Function.update s.bufBlockMap v b.toNat := by
  intro fuel
  induction fuel with
  | zero =>
    intro d s h
    simp [primeScan] at h
  | succ fuel ih =>
    intro d s h
    rw [primeScan] at h ⊢
    dsimp only at h ⊢
    cases h1 : (tryDistance s v rhb d).2.1 with
    | true =>
      simp only [h1, if_true]
      obtain ⟨b, hbd, hb, hnm, hm⟩ := tryDistance_fill s v rhb d h1
      exact ⟨d, b, le_refl d, by omega, hbd, hb, hnm, hm⟩
    | false =>
      simp only [h1, Bool.false_eq_true, if_false] at h ⊢
      rcases tryDistance_map s v rhb d with ⟨_, hm1⟩ | ⟨hf, _⟩
      · have hrec : (primeScan v rhb (tryDistance s v rhb d).1
            (d + 1) fuel).2.1 = true := by simpa using h
        obtain ⟨e, b, he1, he2, hbd, hb, hnm, hm2⟩ :=
          ih (d + 1) (tryDistance s v rhb d).1 hrec
        rw [hm1] at hnm hm2
        exact ⟨e, b, by omega, by omega, hbd, hb, hnm, hm2⟩
      · rw [h1] at hf
        simp at hf

theorem primeVictim_spec (map : Fin 3 → Nat) (rhb : Nat) :
    absDist (map (primeVictim map rhb).1) rhb = (primeVictim map rhb).2 := by
  unfold primeVictim
  dsimp only
  by_cases h1 : absDist (map 1) rhb > absDist (map 0) rhb
  · simp only [h1, if_true]
    by_cases h2 : absDist (map 2) rhb > absDist (map 1) rhb
    · simp [h2]
    · simp [h2]
  · simp only [h1, if_false]
    by_cases h2 : absDist (map 2) rhb > absDist (map 0) rhb
    · simp [h2]
    · simp [h2]

theorem primeMeasure_update (map : Fin 3 → Nat) (rhb : Nat) (v : Fin 3)
    (c : Nat) :
    primeMeasure (Function.update map v c) rhb + absDist (map v) rhb =
      primeMeasure map rhb + absDist c rhb := by
  fin_cases v <;>
    simp [primeMeasure, Function.update_apply, Fin.ext_iff] <;> omega

theorem primeFn_fill_measure (s : SamplerState)
    (h : (primeFn s).2.1 = true) :
    primeMeasure (primeFn s).1.bufBlockMap (rhbOf s) <
      primeMeasure s.bufBlockMap (rhbOf s) := by
  rw [primeFn] at h ⊢
  by_cases hvm : (primeVictim s.bufBlockMap (rhbOf s)).2 > 0
  · simp only [hvm, if_true] at h ⊢
    obtain ⟨e, b, _, he2, hbd, hb, hnm, hm⟩ :=
      primeScan_fill (primeVictim s.bufBlockMap (rhbOf s)).1 (rhbOf s)
        (primeVictim s.bufBlockMap (rhbOf s)).2 0 s h
    rw [hm]
    have habs : absDist b.toNat (rhbOf s) = e := by
      unfold absDist
      rcases hbd with hbe | hbe <;> subst hbe <;> omega
    have hvic := primeVictim_spec s.bufBlockMap (rhbOf s)
    have hupd := primeMeasure_update s.bufBlockMap (rhbOf s)
      (primeVictim s.bufBlockMap (rhbOf s)).1 b.toNat
    omega
  · simp only [hvm, if_false] at h
    simp at h

theorem prime_measure_rec :
    ∀ (n : Nat) (s : SamplerState),
      primeMeasure s.bufBlockMap (rhbOf s) ≤ n →
      ∃ k, ∀ m, k ≤ m → (primeFn (primeIter s m)).2.1 = false ∧
        (primeIter s m).bufBlockMap = (primeIter s k).bufBlockMap := by
  intro n
  induction n with
  | zero =>
    intro s hle
    cases h : (primeFn s).2.1 with
    | false =>
      refine ⟨0, fun m _ => ?_⟩
      have hst := primeIter_stable_of_noFill s h m
      exact ⟨hst.1, hst.2⟩
    | true =>
      have hdec := primeFn_fill_measure s h
      omega
  | succ n ih =>
    intro s hle
    cases h : (primeFn s).2.1 with
    | false =>
      refine ⟨0, fun m _ => ?_⟩
      have hst := primeIter_stable_of_noFill s h m
      exact ⟨hst.1, hst.2⟩
    | true =>
      have hdec := primeFn_fill_measure s h
      have hle2 : primeMeasure (primeFn s).1.bufBlockMap
          (rhbOf (primeFn s).1) ≤ n := by
        rw [primeFn_rhb]
        omega
      obtain ⟨k, hk⟩ := ih (primeFn s).1 hle2
      refine ⟨k + 1, fun m hm => ?_⟩
      obtain ⟨m2, rfl⟩ : ∃ m2, m = m2 + 1 := ⟨m - 1, by omega⟩
      exact hk m2 (by omega)

/-- C9: from every state, repeatedly calling `prime` with an unchanged
cursor reaches, after finitely many calls, a state from which every further
`prime` call reports "no fill performed" and leaves the block map unchanged
— a fixed point, with no oscillation.  (`prime` itself never moves the
cursor, as the last conjunct records.)  The measure is the total distance
of the block-map entries from the read-head block, which every fill
strictly decreases. -/
theorem prime_reaches_no_fill_fixed_point (s : SamplerState) :
    ∃ k, ∀ m, k ≤ m →
      (primeFn (primeIter s m)).2.1 = false ∧
      (primeIter s m).bufBlockMap = (primeIter s k).bufBlockMap ∧
      (primeIter s m).sampleIdx = s.sampleIdx := by
  obtain ⟨k, hk⟩ := prime_measure_rec
    (primeMeasure s.bufBlockMap (rhbOf s)) s (le_refl _)
  exact ⟨k, fun m hm =>
    ⟨(hk m hm).1, (hk m hm).2, primeIter_sampleIdx m s⟩⟩

end Unsaturated
